import Mathlib

/-!
Verification of the giskardpy collision pipeline, world updater, QP-controller
initialization, goal composition and force-torque monitor against their
natural-language specification.  The definitions below are a shallow embedding
of the Python sources (`giskardpy/model/pybullet_syncer.py`,
`giskardpy/tree/behaviors/world_updater.py`,
`giskardpy/tree/behaviors/init_qp_controller.py`,
`giskardpy/goals/suturo.py`, `giskardpy/goals/open_close.py`,
`giskardpy/monitors/force_torque_monitor.py`).
-/

namespace Giskard

/-! ## Collision entries (giskard_msgs CollisionEntry) -/

inductive CEType where
| AVOID_COLLISION
| ALLOW_COLLISION
| AVOID_ALL_COLLISIONS
| ALLOW_ALL_COLLISIONS
deriving DecidableEq

/-- The `CollisionEntry.ALL` wildcard string constant. -/
def WILDCARD : String := "ALL"

structure CollisionEntry where
  type : CEType
  robot_links : List String
  body_b : String
  link_bs : List String
  min_dist : ℚ
deriving DecidableEq

inductive GiskardError where
| physicsWorldException
| unknownBodyException
| todoException
| assertionError
| emptyProblemException
deriving DecidableEq, Repr

instance {ε α : Type} [DecidableEq ε] [DecidableEq α] : DecidableEq (Except ε α) := fun x y =>
  match x, y with
  | .ok a, .ok b => decidable_of_iff (a = b) (by simp)
  | .error a, .error b => decidable_of_iff (a = b) (by simp)
  | .ok _, .error _ => isFalse (by simp)
  | .error _, .ok _ => isFalse (by simp)

/-- One world group: its name, all link names, and the link names that carry
collision geometry.  Mirrors the data `PyBulletSyncer` reads off
`self.world.groups`. -/
structure GroupModel where
  name : String
  link_names : List String
  link_names_with_collisions : List String
deriving DecidableEq

/-- The state of a `PyBulletSyncer` that the collision-entry pipeline reads:
the robot group, the set of world groups, the robot self-collision matrix
(`self.collision_matrices[RobotName]`) and the robot's link order. -/
structure SyncerModel where
  robotName : String
  robot_link_names : List String
  robot_link_names_with_collisions : List String
  groups : List GroupModel
  robot_collision_matrix : List (String × String)
  link_order : String → String → Bool

def SyncerModel.findGroup (ctx : SyncerModel) (n : String) : Option GroupModel :=
  ctx.groups.find? (fun g => g.name == n)

def SyncerModel.groupNames (ctx : SyncerModel) : List String :=
  ctx.groups.map GroupModel.name

def SyncerModel.groupLinkNames (ctx : SyncerModel) (n : String) : List String :=
  ((ctx.findGroup n).map GroupModel.link_names).getD []

def SyncerModel.groupCollisionLinkNames (ctx : SyncerModel) (n : String) : List String :=
  ((ctx.findGroup n).map GroupModel.link_names_with_collisions).getD []

/-! ### The small predicates of PyBulletSyncer -/

def all_robot_links (ce : CollisionEntry) : Bool :=
  ce.robot_links.contains WILDCARD && ce.robot_links.length == 1

def all_link_bs (ce : CollisionEntry) : Bool :=
  (ce.link_bs.contains WILDCARD && ce.link_bs.length == 1) || ce.link_bs.isEmpty

def all_body_bs (ce : CollisionEntry) : Bool :=
  ce.body_b == WILDCARD

def is_avoid_collision (ce : CollisionEntry) : Bool :=
  ce.type == .AVOID_COLLISION || ce.type == .AVOID_ALL_COLLISIONS

def is_allow_collision (ce : CollisionEntry) : Bool :=
  ce.type == .ALLOW_COLLISION || ce.type == .ALLOW_ALL_COLLISIONS

def is_avoid_all_self_collision (ctx : SyncerModel) (ce : CollisionEntry) : Bool :=
  is_avoid_collision ce && all_robot_links ce && (ce.body_b == ctx.robotName) && all_link_bs ce

def is_allow_all_self_collision (ctx : SyncerModel) (ce : CollisionEntry) : Bool :=
  is_allow_collision ce && all_robot_links ce && (ce.body_b == ctx.robotName) && all_link_bs ce

def is_avoid_all_collision (ce : CollisionEntry) : Bool :=
  is_avoid_collision ce && all_robot_links ce && all_body_bs ce && all_link_bs ce

def is_allow_all_collision (ce : CollisionEntry) : Bool :=
  is_allow_collision ce && all_robot_links ce && all_body_bs ce && all_link_bs ce

/-! ### Python-dict model for the collision matrix

The collision matrix returned by `collision_goals_to_collision_matrix` is a
Python dict mapping `(robot_link, body_b, link_b)` to a minimum allowed
distance.  We model it as an insertion-ordered association list with unique
keys, exactly mirroring dict insert / delete / update. -/

abbrev CKey := String × String × String

abbrev CMatrix := List (CKey × ℚ)

def dictGet (m : CMatrix) (k : CKey) : Option ℚ :=
  match m with
  | [] => none
  | (k', v) :: t => if k' = k then some v else dictGet t k

/-- `m[k] = v`: replaces in place if the key exists, appends otherwise. -/
def dictInsert (m : CMatrix) (k : CKey) (v : ℚ) : CMatrix :=
  match m with
  | [] => [(k, v)]
  | (k', v') :: t => if k' = k then (k, v) :: t else (k', v') :: dictInsert t k v

/-- `del m[k]`. -/
def dictDel (m : CMatrix) (k : CKey) : CMatrix :=
  match m with
  | [] => []
  | e :: t => if e.1 = k then dictDel t k else e :: dictDel t k

/-- Deletion of every key whose robot link and body match, as in the
ALLOW-with-ALL-link_bs branch. -/
def dictDelMatching (m : CMatrix) (r b : String) : CMatrix :=
  match m with
  | [] => []
  | e :: t =>
    if e.1.1 = r ∧ e.1.2.1 = b then dictDelMatching t r b
    else e :: dictDelMatching t r b

/-- `m.update(other)`: inserts the entries of `other` in order. -/
def dictUpdate (m other : CMatrix) : CMatrix :=
  other.foldl (fun acc e => dictInsert acc e.1 e.2) m

/-! ### verify_collision_entries: the normalization pipeline -/

/-- First pass: the deprecated `ALLOW_ALL_COLLISIONS` / `AVOID_ALL_COLLISIONS`
types are rewritten to `ALLOW_COLLISION` / `AVOID_COLLISION`. -/
def normalize_types (goals : List CollisionEntry) : List CollisionEntry :=
  goals.map fun ce =>
    match ce.type with
    | .ALLOW_ALL_COLLISIONS => { ce with type := .ALLOW_COLLISION }
    | .AVOID_ALL_COLLISIONS => { ce with type := .AVOID_COLLISION }
    | _ => ce

/-- Second pass: `ALL` may only be used as the sole member of `robot_links` or
`link_bs`, and `body_b == ALL` forces `link_bs == [ALL]`; otherwise a
`PhysicsWorldException` is raised. -/
def validate_all_usage : List CollisionEntry → Except GiskardError Unit
  | [] => .ok ()
  | ce :: rest =>
    if ce.robot_links.contains WILDCARD ∧ ce.robot_links.length ≠ 1 then
      .error .physicsWorldException
    else if ce.link_bs.contains WILDCARD ∧ ce.link_bs.length ≠ 1 then
      .error .physicsWorldException
    else if ce.body_b = WILDCARD ∧ ¬ all_link_bs ce then
      .error .physicsWorldException
    else validate_all_usage rest

/-- The per-entry body of `are_entries_known`: raises `UnknownBodyException`
for an unknown `body_b`, an unknown robot link, or an unknown `link_b` of the
named body, with the same wildcard guards as the source. -/
def entry_known_check (ctx : SyncerModel) (ce : CollisionEntry) : Except GiskardError Unit :=
  if ce.body_b ∉ ctx.groupNames ∧ ¬ all_body_bs ce then
    .error .unknownBodyException
  else if ¬ all_robot_links ce ∧ ce.robot_links.any (fun rl => rl ∉ ctx.robot_link_names) then
    .error .unknownBodyException
  else if ce.body_b = ctx.robotName ∧
      ce.link_bs.any (fun lb => lb ≠ WILDCARD ∧ lb ∉ ctx.robot_link_names) then
    .error .unknownBodyException
  else if ce.body_b ≠ ctx.robotName ∧ ¬ all_body_bs ce ∧ ¬ all_link_bs ce ∧
      ce.link_bs.any (fun lb => lb ∉ ctx.groupLinkNames ce.body_b) then
    .error .unknownBodyException
  else .ok ()

def are_entries_known (ctx : SyncerModel) : List CollisionEntry → Except GiskardError Unit
  | [] => .ok ()
  | ce :: rest =>
    match entry_known_check ctx ce with
    | .ok _ => are_entries_known ctx rest
    | .error e => .error e

/-- Empty `robot_links` / `link_bs` lists default to the `ALL` wildcard. -/
def fill_defaults (goals : List CollisionEntry) : List CollisionEntry :=
  goals.map fun ce =>
    let ce := if ce.robot_links.isEmpty then { ce with robot_links := [WILDCARD] } else ce
    if ce.link_bs.isEmpty then { ce with link_bs := [WILDCARD] } else ce

/-- Scans the goals from the back: everything before the last
avoid-all-collision entry (inclusive) or allow-all-collision entry (exclusive)
is dropped.  `revGoals` is the reversed remaining input, `acc` the retained
suffix in original order. -/
def find_cut_aux (ctx : SyncerModel) : List CollisionEntry → List CollisionEntry →
    Option (List CollisionEntry)
  | [], _ => none
  | ce :: revRest, acc =>
    if is_avoid_all_collision ce then some (ce :: acc)
    else if is_allow_all_collision ce then some acc
    else find_cut_aux ctx revRest (ce :: acc)

/-- The default entry inserted when no avoid-all/allow-all entry is present:
avoid all collisions with distance -1. -/
def defaultAvoidAll : CollisionEntry :=
  { type := .AVOID_COLLISION
    robot_links := [WILDCARD]
    body_b := WILDCARD
    link_bs := [WILDCARD]
    min_dist := -1 }

def apply_cut (ctx : SyncerModel) (goals : List CollisionEntry) : List CollisionEntry :=
  match find_cut_aux ctx goals.reverse [] with
  | some gs => gs
  | none => defaultAvoidAll :: goals

/-- `split_body_b`: entries with `body_b == ALL` are replaced by one entry per
world group (the reversed-insert in the source restores the original group
order). -/
def split_body_b (ctx : SyncerModel) : List CollisionEntry → List CollisionEntry
  | [] => []
  | ce :: rest =>
    if all_body_bs ce then
      (ctx.groups.map fun g => { ce with body_b := g.name }) ++ split_body_b ctx rest
    else ce :: split_body_b ctx rest

/-- `robot_related_stuff`: entries with wildcard or multiple robot links are
split into one entry per robot link.  The source inserts each new entry at the
same index, so the expansion ends up reversed. -/
def robot_related_stuff (ctx : SyncerModel) : List CollisionEntry → List CollisionEntry
  | [] => []
  | ce :: rest =>
    if is_avoid_all_self_collision ctx ce then
      ce :: robot_related_stuff ctx rest
    else if all_robot_links ce then
      (ctx.robot_link_names_with_collisions.map
        (fun rl => { ce with robot_links := [rl] })).reverse ++ robot_related_stuff ctx rest
    else if ce.robot_links.length > 1 then
      (ce.robot_links.map
        (fun rl => { ce with robot_links := [rl] })).reverse ++ robot_related_stuff ctx rest
    else ce :: robot_related_stuff ctx rest

/-- The robot links that can possibly collide with `link` according to the
robot self-collision matrix (`get_possible_collisions`); the Python set is
modelled as a duplicate-free list. -/
def get_possible_collisions (ctx : SyncerModel) (link : String) : List String :=
  (ctx.robot_collision_matrix.foldl
    (fun acc p =>
      if link = p.1 then acc ++ [p.2]
      else if link = p.2 then acc ++ [p.1]
      else acc) []).dedup

/-- `split_link_bs`: wildcard `link_bs` against the robot expand over the
possible self collisions; wildcard `link_bs` against a body that also has a
later concrete entry for the same pair expand over the body's collision links;
multi-element `link_bs` split elementwise.  Insert-at-index again reverses each
expansion. -/
def split_link_bs (ctx : SyncerModel) : List CollisionEntry → List CollisionEntry
  | [] => []
  | ce :: rest =>
    if is_avoid_all_self_collision ctx ce then
      ce :: split_link_bs ctx rest
    else if all_link_bs ce then
      if ce.body_b = ctx.robotName then
        ((get_possible_collisions ctx (ce.robot_links.headD WILDCARD)).map
          (fun lb => { ce with link_bs := [lb] })).reverse ++ split_link_bs ctx rest
      else if (ce :: rest).any (fun x =>
          x.robot_links == ce.robot_links && x.body_b == ce.body_b && ¬ all_link_bs x) then
        ((ctx.groupCollisionLinkNames ce.body_b).map
          (fun lb => { ce with link_bs := [lb] })).reverse ++ split_link_bs ctx rest
      else ce :: split_link_bs ctx rest
    else if ce.link_bs.length > 1 then
      (ce.link_bs.map (fun lb => { ce with link_bs := [lb] })).reverse ++ split_link_bs ctx rest
    else ce :: split_link_bs ctx rest

def verify_collision_entries (ctx : SyncerModel) (goals : List CollisionEntry) :
    Except GiskardError (List CollisionEntry) := do
  let goals := normalize_types goals
  let _ ← validate_all_usage goals
  let _ ← are_entries_known ctx goals
  let goals := fill_defaults goals
  let goals := apply_cut ctx goals
  let goals := split_body_b ctx goals
  let goals := robot_related_stuff ctx goals
  .ok (split_link_bs ctx goals)

/-! ### The accumulation loop of collision_goals_to_collision_matrix -/

/-- `get_robot_collision_matrix`: the robot self-collision matrix as a dict
keyed `(link1, robot_name, link2)` in the robot's link order, each bound to
`min_dist[link1]` of the set pair. -/
def get_robot_collision_matrix (ctx : SyncerModel) (minDist : String → ℚ) : CMatrix :=
  ctx.robot_collision_matrix.foldl
    (fun acc p =>
      if ctx.link_order p.1 p.2 then dictInsert acc (p.1, ctx.robotName, p.2) (minDist p.1)
      else dictInsert acc (p.2, ctx.robotName, p.1) (minDist p.1))
    []

/-- The body of the loop in `collision_goals_to_collision_matrix` for a single
(already normalized) collision entry.  The two `assert len(...) == 1`
statements become the length guard. -/
def processEntry (ctx : SyncerModel) (minDist : String → ℚ) (m : CMatrix)
    (ce : CollisionEntry) : Except GiskardError CMatrix :=
  if is_avoid_all_self_collision ctx ce then
    .ok (dictUpdate m (get_robot_collision_matrix ctx minDist))
  else if ce.robot_links.length = 1 ∧ ce.link_bs.length = 1 then
    if is_allow_collision ce then
      .ok (if all_link_bs ce then
            dictDelMatching m (ce.robot_links.headD WILDCARD) ce.body_b
          else if (dictGet m (ce.robot_links.headD WILDCARD, ce.body_b,
              ce.link_bs.headD WILDCARD)).isSome then
            dictDel m (ce.robot_links.headD WILDCARD, ce.body_b, ce.link_bs.headD WILDCARD)
          else if (dictGet m (ce.link_bs.headD WILDCARD, ce.body_b,
              ce.robot_links.headD WILDCARD)).isSome then
            dictDel m (ce.link_bs.headD WILDCARD, ce.body_b, ce.robot_links.headD WILDCARD)
          else m)
    else if is_avoid_collision ce then
      .ok (dictInsert m (ce.robot_links.headD WILDCARD, ce.body_b, ce.link_bs.headD WILDCARD)
            (minDist (ce.robot_links.headD WILDCARD)))
    else .error .todoException
  else .error .assertionError

def processEntries (ctx : SyncerModel) (minDist : String → ℚ) :
    List CollisionEntry → CMatrix → Except GiskardError CMatrix
  | [], m => .ok m
  | ce :: rest, m =>
    match processEntry ctx minDist m ce with
    | .ok m2 => processEntries ctx minDist rest m2
    | .error e => .error e

/-- `collision_goals_to_collision_matrix`: normalization followed by the
accumulation loop, starting from the empty dict. -/
def collision_goals_to_collision_matrix (ctx : SyncerModel)
    (goals : List CollisionEntry) (minDist : String → ℚ) :
    Except GiskardError CMatrix := do
  let goals ← verify_collision_entries ctx goals
  processEntries ctx minDist goals []

/-! ## Dict lemmas -/

theorem dictGet_dictInsert_self (m : CMatrix) (k : CKey) (v : ℚ) :
    dictGet (dictInsert m k v) k = some v := by
  induction m with
  | nil => simp [dictInsert, dictGet]
  | cons e t ih =>
    by_cases h : e.1 = k
    · simp [dictInsert, dictGet, h]
    · simp [dictInsert, dictGet, h, ih]

theorem dictGet_dictInsert_ne (m : CMatrix) (k : CKey) (v : ℚ) (k' : CKey) (h : k' ≠ k) :
    dictGet (dictInsert m k v) k' = dictGet m k' := by
  induction m with
  | nil => simp [dictInsert, dictGet, Ne.symm h]
  | cons e t ih =>
    by_cases he : e.1 = k
    · simp [dictInsert, dictGet, he, Ne.symm h]
    · by_cases he' : e.1 = k'
      · simp [dictInsert, dictGet, he, he', h]
      · simp [dictInsert, dictGet, he, he', ih]

theorem dictGet_dictDel_ne (m : CMatrix) (k k' : CKey) (h : k' ≠ k) :
    dictGet (dictDel m k) k' = dictGet m k' := by
  induction m with
  | nil => simp [dictDel, dictGet]
  | cons e t ih =>
    by_cases he : e.1 = k
    · simp [dictDel, dictGet, he, Ne.symm h, ih]
    · by_cases he' : e.1 = k'
      · simp [dictDel, dictGet, he, he', h]
      · simp [dictDel, dictGet, he, he', ih]

theorem dictGet_dictDel_self (m : CMatrix) (k : CKey) :
    dictGet (dictDel m k) k = none := by
  induction m with
  | nil => simp [dictDel, dictGet]
  | cons e t ih =>
    by_cases he : e.1 = k
    · simp [dictDel, he, ih]
    · simp [dictDel, dictGet, he, ih]

theorem dictGet_dictDelMatching_ne (m : CMatrix) (r b : String) (k : CKey)
    (h : ¬(k.1 = r ∧ k.2.1 = b)) :
    dictGet (dictDelMatching m r b) k = dictGet m k := by
  induction m with
  | nil => simp [dictDelMatching, dictGet]
  | cons e t ih =>
    by_cases he : e.1.1 = r ∧ e.1.2.1 = b
    · have hne : e.1 ≠ k := by
        intro hh
        exact h (by rw [← hh]; exact he)
      simp [dictDelMatching, dictGet, he, hne, ih]
    · by_cases he' : e.1 = k
      · simp [dictDelMatching, dictGet, he, he', h]
      · simp [dictDelMatching, dictGet, he, he', ih]

/-! ## C1: AVOID takes precedence over a prior ALLOW for the same key -/

/-- `ce` is an ALLOW entry exactly for the key `k`. -/
def allow_entry_for (k : CKey) (ce : CollisionEntry) : Prop :=
  ce.robot_links = [k.1] ∧ ce.body_b = k.2.1 ∧ ce.link_bs = [k.2.2] ∧
    is_allow_collision ce = true

/-- `ce` is a concrete (wildcard-free robot link) AVOID entry for the key `k`. -/
def concrete_avoid_entry_for (k : CKey) (ce : CollisionEntry) : Prop :=
  ce.robot_links = [k.1] ∧ ce.body_b = k.2.1 ∧ ce.link_bs = [k.2.2] ∧
    is_avoid_collision ce = true ∧ k.1 ≠ WILDCARD

/-- `ce` neither rebinds nor removes the key `k` when processed. -/
def leaves_key_alone (ctx : SyncerModel) (k : CKey) (ce : CollisionEntry) : Prop :=
  is_avoid_all_self_collision ctx ce = false ∧
  ∀ r lb, ce.robot_links = [r] → ce.link_bs = [lb] →
    ¬(r = k.1 ∧ ce.body_b = k.2.1) ∧ (lb, ce.body_b, r) ≠ k

theorem processEntry_preserves (ctx : SyncerModel) (minDist : String → ℚ)
    (m : CMatrix) (ce : CollisionEntry) (k : CKey) (m' : CMatrix)
    (h : processEntry ctx minDist m ce = .ok m')
    (halone : leaves_key_alone ctx k ce) :
    dictGet m' k = dictGet m k := by
  obtain ⟨hself, hkeys⟩ := halone
  unfold processEntry at h
  rw [hself] at h
  simp only [Bool.false_eq_true, if_false] at h
  by_cases hlen : ce.robot_links.length = 1 ∧ ce.link_bs.length = 1
  · rw [if_pos hlen] at h
    obtain ⟨r, hr⟩ := List.length_eq_one.mp hlen.1
    obtain ⟨lb, hl⟩ := List.length_eq_one.mp hlen.2
    rw [hr, hl] at h
    simp only [List.headD_cons] at h
    obtain ⟨hk1, hk2⟩ := hkeys r lb hr hl
    have hkey : (r, ce.body_b, lb) ≠ k := by
      intro hh
      exact hk1 ⟨congrArg Prod.fst hh, congrArg (fun x => x.2.1) hh⟩
    by_cases hac : is_allow_collision ce = true
    · rw [if_pos hac] at h
      simp only [Except.ok.injEq] at h
      subst h
      by_cases hall : all_link_bs ce = true
      · rw [if_pos hall]
        refine dictGet_dictDelMatching_ne m r ce.body_b k ?_
        intro hh
        exact hk1 ⟨hh.1.symm, hh.2.symm⟩
      · rw [if_neg hall]
        by_cases h1 : (dictGet m (r, ce.body_b, lb)).isSome
        · rw [if_pos h1]
          exact dictGet_dictDel_ne m _ k (fun hh => hkey hh.symm)
        · rw [if_neg h1]
          by_cases h2 : (dictGet m (lb, ce.body_b, r)).isSome
          · rw [if_pos h2]
            exact dictGet_dictDel_ne m _ k (fun hh => hk2 hh.symm)
          · rw [if_neg h2]
    · rw [if_neg hac] at h
      by_cases hav : is_avoid_collision ce = true
      · rw [if_pos hav] at h
        simp only [Except.ok.injEq] at h
        subst h
        exact dictGet_dictInsert_ne m _ _ k (Ne.symm hkey)
      · rw [if_neg hav] at h
        exact absurd h (by simp)
  · rw [if_neg hlen] at h
    exact absurd h (by simp)

theorem processEntries_preserves (ctx : SyncerModel) (minDist : String → ℚ)
    (l : List CollisionEntry) (m m' : CMatrix) (k : CKey)
    (h : processEntries ctx minDist l m = .ok m')
    (halone : ∀ ce ∈ l, leaves_key_alone ctx k ce) :
    dictGet m' k = dictGet m k := by
  induction l generalizing m with
  | nil =>
    unfold processEntries at h
    simp only [Except.ok.injEq] at h
    rw [h]
  | cons ce rest ih =>
    unfold processEntries at h
    match hpe : processEntry ctx minDist m ce with
    | .error e => rw [hpe] at h; exact absurd h (by simp)
    | .ok m2 =>
      rw [hpe] at h
      have h1 := processEntry_preserves ctx minDist m ce k m2 hpe (halone ce (by simp))
      have h2 := ih m2 h (fun c hc => halone c (by simp [hc]))
      rw [h2, h1]

theorem processEntries_ok_suffix (ctx : SyncerModel) (minDist : String → ℚ)
    (l suf : List CollisionEntry) (m m' : CMatrix)
    (h : processEntries ctx minDist (l ++ suf) m = .ok m') :
    ∃ mm, processEntries ctx minDist suf mm = .ok m' := by
  induction l generalizing m with
  | nil => exact ⟨m, h⟩
  | cons ce rest ih =>
    rw [List.cons_append] at h
    unfold processEntries at h
    match hpe : processEntry ctx minDist m ce with
    | .error e => rw [hpe] at h; exact absurd h (by simp)
    | .ok m2 =>
      rw [hpe] at h
      exact ih m2 h

theorem processEntry_concrete_avoid (ctx : SyncerModel) (minDist : String → ℚ)
    (m : CMatrix) (ce : CollisionEntry) (k : CKey)
    (h : concrete_avoid_entry_for k ce) :
    processEntry ctx minDist m ce = .ok (dictInsert m k (minDist k.1)) := by
  obtain ⟨hr, hb, hl, hav, hconc⟩ := h
  have hnrl : all_robot_links ce = false := by
    simp only [all_robot_links, hr]
    simp [Ne.symm hconc]
  have hself : is_avoid_all_self_collision ctx ce = false := by
    simp [is_avoid_all_self_collision, hnrl]
  have hnal : is_allow_collision ce = false := by
    rcases Bool.or_eq_true _ _ |>.mp hav with h1 | h1 <;>
      simp_all [is_avoid_collision, is_allow_collision]
  have hlen : ce.robot_links.length = 1 ∧ ce.link_bs.length = 1 := by
    rw [hr, hl]; exact ⟨rfl, rfl⟩
  unfold processEntry
  rw [hself]
  simp only [Bool.false_eq_true, if_false]
  rw [if_pos hlen, hnal]
  simp only [Bool.false_eq_true, if_false]
  rw [hav]
  simp only [if_true]
  rw [hr, hl, hb]
  simp

/-- C1: once wildcards are expanded, an AVOID_COLLISION entry for a key that
appears after an ALLOW_COLLISION entry for the same key (and is not later
removed or rebound) leaves the returned mapping with that key bound to the
minimum allowed distance of its robot link: AVOID takes precedence over the
prior ALLOW. -/
theorem avoid_takes_precedence_over_prior_allow
    (ctx : SyncerModel) (minDist : String → ℚ) (k : CKey)
    (l1 l2 l3 : List CollisionEntry) (ceAllow ceAvoid : CollisionEntry) (m : CMatrix)
    (_hallow : allow_entry_for k ceAllow)
    (havoid : concrete_avoid_entry_for k ceAvoid)
    (halone : ∀ ce ∈ l3, leaves_key_alone ctx k ce)
    (h : processEntries ctx minDist (l1 ++ ceAllow :: l2 ++ ceAvoid :: l3) [] = .ok m) :
    dictGet m k = some (minDist k.1) := by
  have hsplit : l1 ++ ceAllow :: l2 ++ ceAvoid :: l3 =
      (l1 ++ ceAllow :: l2) ++ (ceAvoid :: l3) := by
    simp [List.append_assoc]
  rw [hsplit] at h
  obtain ⟨mm, hmm⟩ := processEntries_ok_suffix ctx minDist _ _ _ _ h
  unfold processEntries at hmm
  rw [processEntry_concrete_avoid ctx minDist mm ceAvoid k havoid] at hmm
  have := processEntries_preserves ctx minDist l3 _ _ k hmm halone
  rw [this, dictGet_dictInsert_self]

/-! ### Concrete fixtures -/

def sampleSyncer : SyncerModel :=
  { robotName := "robot"
    robot_link_names := ["a", "b"]
    robot_link_names_with_collisions := ["a", "b"]
    groups := [⟨"robot", ["a", "b"], ["a", "b"]⟩]
    robot_collision_matrix := []
    link_order := fun _ _ => true }

def sampleMinDist : String → ℚ := fun l => if l = "a" then 1 else 2

def sampleAllow : CollisionEntry :=
  { type := .ALLOW_COLLISION, robot_links := ["a"], body_b := "robot"
    link_bs := ["b"], min_dist := 0 }

def sampleAvoid : CollisionEntry :=
  { type := .AVOID_COLLISION, robot_links := ["a"], body_b := "robot"
    link_bs := ["b"], min_dist := 0 }

def sampleAvoidRev : CollisionEntry :=
  { type := .AVOID_COLLISION, robot_links := ["b"], body_b := "robot"
    link_bs := ["a"], min_dist := 0 }

def orderedSyncer : SyncerModel :=
  { sampleSyncer with
      robot_collision_matrix := [("a", "b")]
      link_order := fun x y => x == "a" && y == "b" }

/-- Witness for C1 at a concrete ALLOW-then-AVOID request pair. -/
theorem avoid_takes_precedence_witness :
    allow_entry_for ("a", "robot", "b") sampleAllow ∧
    concrete_avoid_entry_for ("a", "robot", "b") sampleAvoid ∧
    (∀ ce ∈ ([] : List CollisionEntry), leaves_key_alone sampleSyncer ("a", "robot", "b") ce) ∧
    processEntries sampleSyncer sampleMinDist
      ([] ++ sampleAllow :: [] ++ sampleAvoid :: []) [] = .ok [(("a", "robot", "b"), 1)] ∧
    dictGet [(("a", "robot", "b"), (1 : ℚ))] ("a", "robot", "b") = some (sampleMinDist ("a")) :=
  ⟨⟨rfl, rfl, rfl, rfl⟩, ⟨rfl, rfl, rfl, rfl, by decide⟩, by simp, by decide,
    avoid_takes_precedence_over_prior_allow sampleSyncer sampleMinDist ("a", "robot", "b")
      [] [] [] sampleAllow sampleAvoid [(("a", "robot", "b"), 1)]
      ⟨rfl, rfl, rfl, rfl⟩ ⟨rfl, rfl, rfl, rfl, by decide⟩ (by simp) (by decide)⟩

/-! ## C6: symmetry of collision relevance -/

/-- Counterexample for C6: two explicit AVOID entries, one per orientation of
the same robot link pair, produce a matrix holding BOTH orientations as
distinct entries (moreover with different bounds), so `(A,B)` and `(B,A)` do
not denote the same entry. -/
theorem collision_matrix_not_symmetric_counterexample :
    collision_goals_to_collision_matrix sampleSyncer [sampleAvoid, sampleAvoidRev]
        sampleMinDist =
      .ok [(("a", "robot", "b"), 1), (("b", "robot", "a"), 2)] ∧
    dictGet [(("a", "robot", "b"), (1 : ℚ)), (("b", "robot", "a"), 2)] ("a", "robot", "b") =
      some 1 ∧
    dictGet [(("a", "robot", "b"), (1 : ℚ)), (("b", "robot", "a"), 2)] ("b", "robot", "a") =
      some 2 := by
  refine ⟨by decide, by decide, by decide⟩

theorem is_allow_not_avoid (ce : CollisionEntry) (h : is_allow_collision ce = true) :
    is_avoid_collision ce = false := by
  cases htype : ce.type <;> simp_all [is_allow_collision, is_avoid_collision]

theorem dictGet_dictInsert_isSome (m : CMatrix) (k : CKey) (v : ℚ) (k' : CKey)
    (h : (dictGet (dictInsert m k v) k').isSome = true) :
    k' = k ∨ (dictGet m k').isSome = true := by
  by_cases hk : k' = k
  · exact Or.inl hk
  · rw [dictGet_dictInsert_ne m k v k' hk] at h
    exact Or.inr h

/-- C6 amended: a concrete ALLOW entry whose own orientation is absent removes
the bound stored under the reversed orientation (and leaves its own orientation
absent); and the robot self-collision matrix keys every pair in a single
link_order-canonical orientation, so it never holds both orientations.  (AVOID
entries, in contrast, key the pair exactly as oriented in the request — see the
counterexample.) -/
theorem collision_matrix_symmetry_amended :
    (∀ (ctx : SyncerModel) (minDist : String → ℚ) (m : CMatrix) (ce : CollisionEntry)
        (r b lb : String), allow_entry_for (r, b, lb) ce → lb ≠ WILDCARD →
      dictGet m (r, b, lb) = none →
      ∀ m', processEntry ctx minDist m ce = .ok m' →
        dictGet m' (r, b, lb) = none ∧ dictGet m' (lb, b, r) = none) ∧
    (∀ (ctx : SyncerModel) (minDist : String → ℚ),
      (∀ x y, ¬(ctx.link_order x y = true ∧ ctx.link_order y x = true)) →
      (∀ p ∈ ctx.robot_collision_matrix,
        ctx.link_order p.1 p.2 = true ∨ ctx.link_order p.2 p.1 = true) →
      ∀ x y, ¬((dictGet (get_robot_collision_matrix ctx minDist)
                  (x, ctx.robotName, y)).isSome = true ∧
               (dictGet (get_robot_collision_matrix ctx minDist)
                  (y, ctx.robotName, x)).isSome = true)) := by
  constructor
  · intro ctx minDist m ce r b lb hce hconc habsent m' h
    obtain ⟨hr, hb, hl, hal⟩ := hce
    dsimp only at hr hb hl
    subst hb
    have hnav : is_avoid_collision ce = false := is_allow_not_avoid ce hal
    have hself : is_avoid_all_self_collision ctx ce = false := by
      simp [is_avoid_all_self_collision, hnav]
    have hlen : ce.robot_links.length = 1 ∧ ce.link_bs.length = 1 := by
      rw [hr, hl]; exact ⟨rfl, rfl⟩
    have hnall : all_link_bs ce = false := by
      simp only [all_link_bs, hl]
      simp [Ne.symm hconc]
    unfold processEntry at h
    rw [hself] at h
    simp only [Bool.false_eq_true, if_false] at h
    rw [if_pos hlen, hal] at h
    simp only [if_true, hr, hl, List.headD_cons, hnall, Bool.false_eq_true, if_false] at h
    rw [habsent] at h
    simp only [Option.isSome_none, Bool.false_eq_true, if_false] at h
    by_cases hrk : (dictGet m (lb, ce.body_b, r)).isSome = true
    · rw [if_pos hrk] at h
      simp only [Except.ok.injEq] at h
      subst h
      constructor
      · by_cases hkk : ((r, ce.body_b, lb) : CKey) = (lb, ce.body_b, r)
        · rw [hkk]
          exact dictGet_dictDel_self m _
        · rw [dictGet_dictDel_ne m _ _ hkk]
          exact habsent
      · exact dictGet_dictDel_self m _
    · rw [if_neg hrk] at h
      simp only [Except.ok.injEq] at h
      subst h
      refine ⟨habsent, ?_⟩
      exact Option.not_isSome_iff_eq_none.mp hrk
  · intro ctx minDist hasym htot x y h
    have hmain : ∀ (l : List (String × String)),
        (∀ p ∈ l, ctx.link_order p.1 p.2 = true ∨ ctx.link_order p.2 p.1 = true) →
        ∀ (acc : CMatrix),
        (∀ a c, (dictGet acc (a, ctx.robotName, c)).isSome = true →
          ctx.link_order a c = true) →
        ∀ a c, (dictGet (l.foldl
            (fun acc p =>
              if ctx.link_order p.1 p.2 then
                dictInsert acc (p.1, ctx.robotName, p.2) (minDist p.1)
              else dictInsert acc (p.2, ctx.robotName, p.1) (minDist p.1)) acc)
            (a, ctx.robotName, c)).isSome = true →
          ctx.link_order a c = true := by
      intro l
      induction l with
      | nil => intro _ acc hacc a c hc; exact hacc a c hc
      | cons p t ih =>
        intro hmem acc hacc a c hc
        rw [List.foldl_cons] at hc
        refine ih (fun q hq => hmem q (by simp [hq])) _ ?_ a c hc
        intro a' c' h'
        by_cases hord : ctx.link_order p.1 p.2 = true
        · rw [if_pos hord] at h'
          rcases dictGet_dictInsert_isSome _ _ _ _ h' with heq | hprev
          · have h1 : a' = p.1 := congrArg Prod.fst heq
            have h2 : c' = p.2 := congrArg (fun z => z.2.2) heq
            rw [h1, h2]; exact hord
          · exact hacc a' c' hprev
        · rw [if_neg hord] at h'
          rcases dictGet_dictInsert_isSome _ _ _ _ h' with heq | hprev
          · have h1 : a' = p.2 := congrArg Prod.fst heq
            have h2 : c' = p.1 := congrArg (fun z => z.2.2) heq
            rw [h1, h2]
            rcases hmem p (by simp) with hcase | hcase
            · exact absurd hcase hord
            · exact hcase
          · exact hacc a' c' hprev
    have h1 : ctx.link_order x y = true := by
      refine hmain ctx.robot_collision_matrix htot [] ?_ x y h.1
      intro a c hc
      simp [dictGet] at hc
    have h2 : ctx.link_order y x = true := by
      refine hmain ctx.robot_collision_matrix htot [] ?_ y x h.2
      intro a c hc
      simp [dictGet] at hc
    exact hasym x y ⟨h1, h2⟩

/-- Witness for the amended C6 theorem at concrete inputs. -/
theorem collision_matrix_symmetry_amended_witness :
    (allow_entry_for ("a", "robot", "b") sampleAllow ∧ ("b" : String) ≠ WILDCARD ∧
      dictGet [(("b", "robot", "a"), (2 : ℚ))] ("a", "robot", "b") = none ∧
      processEntry sampleSyncer sampleMinDist [(("b", "robot", "a"), (2 : ℚ))] sampleAllow =
        .ok [] ∧
      (dictGet ([] : CMatrix) ("a", "robot", "b") = none ∧
        dictGet ([] : CMatrix) ("b", "robot", "a") = none)) ∧
    ((∀ x y, ¬(orderedSyncer.link_order x y = true ∧ orderedSyncer.link_order y x = true)) ∧
      (∀ p ∈ orderedSyncer.robot_collision_matrix,
        orderedSyncer.link_order p.1 p.2 = true ∨ orderedSyncer.link_order p.2 p.1 = true) ∧
      ¬((dictGet (get_robot_collision_matrix orderedSyncer sampleMinDist)
            ("a", orderedSyncer.robotName, "b")).isSome = true ∧
        (dictGet (get_robot_collision_matrix orderedSyncer sampleMinDist)
            ("b", orderedSyncer.robotName, "a")).isSome = true)) := by
  have hasym : ∀ x y, ¬(orderedSyncer.link_order x y = true ∧
      orderedSyncer.link_order y x = true) := by
    intro x y h
    have h1 := h.1
    have h2 := h.2
    simp only [orderedSyncer, Bool.and_eq_true, beq_iff_eq] at h1 h2
    simp_all
  have htot : ∀ p ∈ orderedSyncer.robot_collision_matrix,
      orderedSyncer.link_order p.1 p.2 = true ∨ orderedSyncer.link_order p.2 p.1 = true := by
    intro p hp
    simp only [orderedSyncer] at hp
    rcases List.mem_singleton.mp hp with rfl
    left
    decide
  refine ⟨⟨⟨rfl, rfl, rfl, rfl⟩, by decide, by decide, by decide, ?_⟩, hasym, htot, ?_⟩
  · exact collision_matrix_symmetry_amended.1 sampleSyncer sampleMinDist
      [(("b", "robot", "a"), (2 : ℚ))] sampleAllow ("a") ("robot") ("b")
      ⟨rfl, rfl, rfl, rfl⟩ (by decide) (by decide) [] (by decide)
  · exact collision_matrix_symmetry_amended.2 orderedSyncer sampleMinDist hasym htot ("a") ("b")

/-! ## C7: are_entries_known raises UnknownBodyException exactly for unknown names -/

/-- An entry naming an unknown `body_b` (not the ALL wildcard), an unknown
robot link (robot_links not the sole wildcard), an unknown `link_b` of the
robot body (wildcard members skipped), or an unknown `link_b` of another named
body (wildcard link_bs skipped) — the exact conditions checked by
`are_entries_known`. -/
def bad_entry (ctx : SyncerModel) (ce : CollisionEntry) : Prop :=
  (ce.body_b ∉ ctx.groupNames ∧ ¬ all_body_bs ce) ∨
  (¬ all_robot_links ce ∧ ce.robot_links.any (fun rl => rl ∉ ctx.robot_link_names)) ∨
  (ce.body_b = ctx.robotName ∧
    ce.link_bs.any (fun lb => lb ≠ WILDCARD ∧ lb ∉ ctx.robot_link_names)) ∨
  (ce.body_b ≠ ctx.robotName ∧ ¬ all_body_bs ce ∧ ¬ all_link_bs ce ∧
    ce.link_bs.any (fun lb => lb ∉ ctx.groupLinkNames ce.body_b))

theorem entry_known_check_err_iff (ctx : SyncerModel) (ce : CollisionEntry) :
    entry_known_check ctx ce = .error .unknownBodyException ↔ bad_entry ctx ce := by
  unfold entry_known_check bad_entry
  split_ifs with h1 h2 h3 h4 <;> simp_all

theorem entry_known_check_ok_iff (ctx : SyncerModel) (ce : CollisionEntry) :
    entry_known_check ctx ce = .ok () ↔ ¬ bad_entry ctx ce := by
  unfold entry_known_check bad_entry
  split_ifs with h1 h2 h3 h4 <;> simp_all

/-- C7: the entry check raises `UnknownBodyException` if and only if some
entry names an unknown body, robot link or link_b as described by `bad_entry`;
bad requests are rejected with the exception, never silently dropped. -/
theorem are_entries_known_raises_iff (ctx : SyncerModel) (goals : List CollisionEntry) :
    are_entries_known ctx goals = .error .unknownBodyException ↔
      ∃ ce ∈ goals, bad_entry ctx ce := by
  induction goals with
  | nil => simp [are_entries_known]
  | cons ce rest ih =>
    unfold are_entries_known
    by_cases hb : bad_entry ctx ce
    · rw [(entry_known_check_err_iff ctx ce).mpr hb]
      simp only []
      constructor
      · intro _
        exact ⟨ce, by simp, hb⟩
      · intro _
        trivial
    · rw [entry_known_check_ok_iff ctx ce |>.mpr hb]
      simp only []
      rw [ih]
      constructor
      · intro ⟨c, hc, hbad⟩
        exact ⟨c, by simp [hc], hbad⟩
      · intro ⟨c, hc, hbad⟩
        rcases List.mem_cons.mp hc with rfl | hmem
        · exact absurd hbad hb
        · exact ⟨c, hmem, hbad⟩

/-! ## C2: InitQPController fails fast on an empty problem
(src/giskardpy/tree/behaviors/init_qp_controller.py) -/

/-- A symbolic expression, represented by its list of free symbol names
(`w.free_symbols` is the only thing `get_active_free_symbols` reads off it). -/
abbrev CasExpression := List String

def free_symbols (e : CasExpression) : List String := e

structure FreeVariable where
  position_name : String
deriving DecidableEq, Repr

/-- One entry of the eq/neq/derivative constraint dicts; only its expression
matters here. -/
structure Constraint where
  name : String
  expression : CasExpression
deriving DecidableEq, Repr

/-- The union of the stringified free symbols of the given constraints'
expressions (`symbols` in `get_active_free_symbols`). -/
def constraint_symbols (cs : List Constraint) : List String :=
  cs.foldl (fun s c => s ∪ free_symbols c.expression) []

/-- `InitQPController.get_active_free_symbols`: the world free variables whose
position name occurs in some constraint expression, sorted by position name;
raises `EmptyProblemException` when there are none. -/
def get_active_free_symbols (eq_constraints neq_constraints derivative_constraints :
    List Constraint) (world_free_variables : List FreeVariable) :
    Except GiskardError (List FreeVariable) :=
  if (List.insertionSort (fun a b => a.position_name ≤ b.position_name)
      (world_free_variables.filter (fun v => v.position_name ∈
        constraint_symbols (eq_constraints ++ neq_constraints ++
          derivative_constraints)))).length = 0 then
    .error .emptyProblemException
  else
    .ok (List.insertionSort (fun a b => a.position_name ≤ b.position_name)
      (world_free_variables.filter (fun v => v.position_name ∈
        constraint_symbols (eq_constraints ++ neq_constraints ++ derivative_constraints))))

structure QPControllerConfig where
  sample_period : ℚ
  prediction_horizon : ℕ
  qp_solver : String
  retries_with_relaxed_constraints : ℕ
  added_slack : ℚ
  weight_factor : ℚ
deriving DecidableEq, Repr

/-- The QP problem builder as constructed in `InitQPController.update`. -/
structure QPProblemBuilder where
  free_variables : List FreeVariable
  equality_constraints : List Constraint
  inequality_constraints : List Constraint
  derivative_constraints : List Constraint
  manipulability_constraints : List Constraint
  sample_period : ℚ
  prediction_horizon : ℕ
  solver_id : String
  retries_with_relaxed_constraints : ℕ
  retry_added_slack : ℚ
  retry_weight_factor : ℚ
deriving DecidableEq, Repr

/-- `InitQPController.update`: collects the active free symbols and only then
builds the `QPProblemBuilder`. -/
def InitQPController_update (eq_constraints neq_constraints derivative_constraints
    manip_constraints : List Constraint) (world_free_variables : List FreeVariable)
    (cfg : QPControllerConfig) : Except GiskardError QPProblemBuilder := do
  let free_variables ← get_active_free_symbols eq_constraints neq_constraints
    derivative_constraints world_free_variables
  .ok { free_variables := free_variables
        equality_constraints := eq_constraints
        inequality_constraints := neq_constraints
        derivative_constraints := derivative_constraints
        manipulability_constraints := manip_constraints
        sample_period := cfg.sample_period
        prediction_horizon := cfg.prediction_horizon
        solver_id := cfg.qp_solver
        retries_with_relaxed_constraints := cfg.retries_with_relaxed_constraints
        retry_added_slack := cfg.added_slack
        retry_weight_factor := cfg.weight_factor }

/-- C2: when no world free variable occurs in the constraints, QP-controller
initialization raises `EmptyProblemException` and no `QPProblemBuilder` is
constructed. -/
theorem empty_problem_raised_before_qp_construction
    (eq_constraints neq_constraints derivative_constraints manip_constraints : List Constraint)
    (world_free_variables : List FreeVariable) (cfg : QPControllerConfig)
    (h : ∀ v ∈ world_free_variables, v.position_name ∉
      constraint_symbols (eq_constraints ++ neq_constraints ++ derivative_constraints)) :
    InitQPController_update eq_constraints neq_constraints derivative_constraints
      manip_constraints world_free_variables cfg = .error .emptyProblemException := by
  have hfil : world_free_variables.filter (fun v => v.position_name ∈
      constraint_symbols (eq_constraints ++ neq_constraints ++ derivative_constraints)) = [] := by
    rw [List.filter_eq_nil_iff]
    intro v hv
    simpa using h v hv
  have hact : get_active_free_symbols eq_constraints neq_constraints derivative_constraints
      world_free_variables = .error .emptyProblemException := by
    unfold get_active_free_symbols
    rw [hfil]
    rfl
  unfold InitQPController_update
  rw [hact]
  rfl

/-- Witness for C2: a constraint over symbol `x` while the world only has free
variable `y`. -/
theorem empty_problem_witness :
    (∀ v ∈ [(⟨"y"⟩ : FreeVariable)], v.position_name ∉
      constraint_symbols ([⟨"c1", ["x"]⟩] ++ [] ++ [])) ∧
    InitQPController_update [⟨"c1", ["x"]⟩] [] [] [] [⟨"y"⟩]
      ⟨1, 9, "gurobi", 5, 100, 100⟩ = .error .emptyProblemException :=
  ⟨by decide, empty_problem_raised_before_qp_construction [⟨"c1", ["x"]⟩] [] [] [] [⟨"y"⟩]
    ⟨1, 9, "gurobi", 5, 100, 100⟩ (by decide)⟩

/-! ## C3 and C5: the world updater (src/giskardpy/tree/behaviors/world_updater.py) -/

inductive BodyType where
| MESH_BODY
| URDF_BODY
| PRIMITIVE_BODY
deriving DecidableEq, Repr

inductive WorldException where
| corruptShapeException
| parseError
| unknownGroupException
| unknownLinkException
| duplicateNameException
| unsupportedOptionException
| transformException
| otherException
deriving DecidableEq, Repr

inductive ResponseCode where
| SUCCESS
| CORRUPT_MESH_ERROR
| CORRUPT_URDF_ERROR
| CORRUPT_SHAPE_ERROR
| UNKNOWN_GROUP_ERROR
| UNKNOWN_LINK_ERROR
| DUPLICATE_GROUP_ERROR
| UNSUPPORTED_OPTIONS
| TF_ERROR
| INVALID_OPERATION
| BUSY
| ERROR
deriving DecidableEq, Repr

structure UpdateWorldResponse where
  error_codes : ResponseCode
deriving DecidableEq, Repr

inductive UpdateOperation where
| ADD
| UPDATE_PARENT_LINK
| UPDATE_POSE
| REMOVE
| REMOVE_ALL
| INVALID
deriving DecidableEq, Repr

structure UpdateWorldRequest where
  operation : UpdateOperation
  group_name : String
  parent_link : String
  pose_frame_id : String
  body_type : BodyType
deriving DecidableEq, Repr

structure WorldGroup where
  name : String
  links : List String
deriving DecidableEq, Repr

structure WorldModel where
  robot_name : String
  groups : List WorldGroup
deriving DecidableEq, Repr

def WorldModel.group_names (w : WorldModel) : List String :=
  w.groups.map WorldGroup.name

def WorldModel.link_names (w : WorldModel) : List String :=
  (w.groups.map WorldGroup.links).flatten

/-- `exception_to_response`: maps each raised exception to a response error
code, in the source's dispatch order. -/
def exception_to_response (e : WorldException) (req : UpdateWorldRequest) :
    UpdateWorldResponse :=
  if e = .corruptShapeException ∨ e = .parseError then
    if req.body_type = .MESH_BODY then ⟨.CORRUPT_MESH_ERROR⟩
    else if req.body_type = .URDF_BODY then ⟨.CORRUPT_URDF_ERROR⟩
    else ⟨.CORRUPT_SHAPE_ERROR⟩
  else if e = .unknownGroupException then ⟨.UNKNOWN_GROUP_ERROR⟩
  else if e = .unknownLinkException then ⟨.UNKNOWN_LINK_ERROR⟩
  else if e = .duplicateNameException then ⟨.DUPLICATE_GROUP_ERROR⟩
  else if e = .unsupportedOptionException then ⟨.UNSUPPORTED_OPTIONS⟩
  else if e = .transformException then ⟨.TF_ERROR⟩
  else ⟨.ERROR⟩

/-- Modelled from the spec: `WorldTree.search_for_link_name`
(giskardpy/model/world.py, which is not part of the sources) resolves a link
name; requests naming unknown links are rejected (UNKNOWN_LINK). -/
def search_for_link_name (w : WorldModel) (link : String) : Except WorldException String :=
  if link ∈ w.link_names then .ok link else .error .unknownLinkException

/-- Modelled from the spec: `WorldTree.add_world_body`
(giskardpy/model/world.py, not in the sources) adds a new group under the
given name and rejects an already existing group name with
`DuplicateNameException`, leaving the world unchanged ("world-update ADD for
an already-existing group name returns DUPLICATE_NAME and leaves the existing
group untouched"). -/
def add_world_body (w : WorldModel) (group_name : String) (links : List String) :
    Except WorldException WorldModel :=
  if group_name ∈ w.group_names then .error .duplicateNameException
  else .ok { w with groups := w.groups ++ [⟨group_name, links⟩] }

/-- `WorldUpdater.add_object`: resolves the parent link, requires a pose frame
id, then adds the body. -/
def WorldUpdater_add_object (w : WorldModel) (req : UpdateWorldRequest)
    (body_links : List String) : Except WorldException WorldModel := do
  let _ ← search_for_link_name w req.parent_link
  if req.pose_frame_id = "" then .error .transformException
  else add_world_body w req.group_name body_links

/-- `WorldUpdater.remove_object`. -/
def WorldUpdater_remove_object (w : WorldModel) (name : String) :
    Except WorldException WorldModel :=
  if name ∉ w.group_names then .error .unknownGroupException
  else .ok { w with groups := w.groups.filter (fun g => g.name ≠ name) }

/-- `WorldUpdater.update_group_pose`: rejects unknown groups; a pose change
does not alter the group structure. -/
def WorldUpdater_update_group_pose (w : WorldModel) (req : UpdateWorldRequest) :
    Except WorldException WorldModel :=
  if req.group_name ∉ w.group_names then .error .unknownGroupException
  else .ok w

/-- `WorldUpdater.update_parent_link`: resolves the new parent and rejects
unknown groups; reparenting does not alter the group structure. -/
def WorldUpdater_update_parent_link (w : WorldModel) (req : UpdateWorldRequest) :
    Except WorldException WorldModel := do
  let _ ← search_for_link_name w req.parent_link
  if req.group_name ∉ w.group_names then .error .unknownGroupException
  else .ok w

/-- `WorldUpdater.clear_world`: deletes everything but the robots. -/
def WorldUpdater_clear_world (w : WorldModel) : Except WorldException WorldModel :=
  .ok { w with groups := w.groups.filter (fun g => g.name = w.robot_name) }

/-- The inner try of `update_world_cb`: dispatch on the operation, report
SUCCESS or the mapped exception; on an exception the world is left as it
was. -/
def WorldUpdater_dispatch (w : WorldModel) (req : UpdateWorldRequest)
    (body_links : List String) : UpdateWorldResponse × WorldModel :=
  match req.operation with
  | .INVALID => (⟨.INVALID_OPERATION⟩, w)
  | op =>
    let result : Except WorldException WorldModel :=
      match op with
      | .ADD => WorldUpdater_add_object w req body_links
      | .UPDATE_PARENT_LINK => WorldUpdater_update_parent_link w req
      | .UPDATE_POSE => WorldUpdater_update_group_pose w req
      | .REMOVE => WorldUpdater_remove_object w req.group_name
      | .REMOVE_ALL => WorldUpdater_clear_world w
      | .INVALID => .ok w
    match result with
    | .ok w2 => (⟨.SUCCESS⟩, w2)
    | .error e => (exception_to_response e req, w)

/-- `WorldUpdater.update_world_cb`: when the single work permit cannot be
acquired before the timeout (a control tick is in flight), the request is
answered BUSY without touching the world; otherwise the request is
dispatched. -/
def update_world_cb (permit_acquired : Bool) (w : WorldModel)
    (req : UpdateWorldRequest) (body_links : List String) :
    UpdateWorldResponse × WorldModel :=
  if permit_acquired then WorldUpdater_dispatch w req body_links
  else (⟨.BUSY⟩, w)

/-- C3: a world-update request arriving while the work permit is unavailable
is rejected with a BUSY response and the world is left unmodified, for every
request and every world. -/
theorem busy_request_rejected_world_unchanged (w : WorldModel)
    (req : UpdateWorldRequest) (body_links : List String) :
    update_world_cb false w req body_links = (⟨.BUSY⟩, w) := rfl

/-- C5: an ADD request for an existing group name (with resolvable parent link
and a set pose frame) is answered DUPLICATE_GROUP_ERROR and the world is
returned unchanged. -/
theorem duplicate_add_rejected_world_unchanged (w : WorldModel)
    (req : UpdateWorldRequest) (body_links : List String)
    (hop : req.operation = .ADD)
    (hdup : req.group_name ∈ w.group_names)
    (hparent : req.parent_link ∈ w.link_names)
    (hframe : req.pose_frame_id ≠ "") :
    update_world_cb true w req body_links = (⟨.DUPLICATE_GROUP_ERROR⟩, w) := by
  have hadd : WorldUpdater_add_object w req body_links = .error .duplicateNameException := by
    unfold WorldUpdater_add_object search_for_link_name add_world_body
    rw [if_pos hparent]
    show (if req.pose_frame_id = "" then (.error .transformException : Except WorldException WorldModel)
          else if req.group_name ∈ w.group_names then .error .duplicateNameException
          else .ok { w with groups := w.groups ++ [⟨req.group_name, body_links⟩] }) = _
    rw [if_neg hframe, if_pos hdup]
  unfold update_world_cb WorldUpdater_dispatch
  rw [if_pos rfl, hop]
  simp only [hadd]
  rfl

/-- A world holding the robot, a `map` group and a `box` group. -/
def boxWorld : WorldModel :=
  ⟨"robot", [⟨"map", ["map"]⟩, ⟨"box", ["box_link"]⟩]⟩

/-- Witness for C5: adding a group named `box` to a world already holding a
group `box`. -/
theorem duplicate_add_witness :
    ((⟨.ADD, "box", "map", "map", .PRIMITIVE_BODY⟩ : UpdateWorldRequest).operation = .ADD) ∧
    ("box" ∈ boxWorld.group_names) ∧
    ("map" ∈ boxWorld.link_names) ∧
    (("map" : String) ≠ "") ∧
    update_world_cb true boxWorld
      ⟨.ADD, "box", "map", "map", .PRIMITIVE_BODY⟩ ["box_link"] =
      (⟨.DUPLICATE_GROUP_ERROR⟩, boxWorld) :=
  ⟨rfl, by decide, by decide, by decide,
    duplicate_add_rejected_world_unchanged boxWorld
      ⟨.ADD, "box", "map", "map", .PRIMITIVE_BODY⟩ ["box_link"]
      rfl (by decide) (by decide) (by decide)⟩

/-! ## C4 and C9: calc_collision_matrix
(src/giskardpy/model/pybullet_syncer.py, lines 60-117)

The group's joint state is abstract (`S`); setting the zero / min / max /
random joint configurations is a write to the `state` field, and the pybullet
distance oracle (`in_collision` via `getClosestPoints`) is a function of the
current joint state. -/

abbrev LinkPair := String × String

/-- The part of a `SubWorldTree` group that `calc_collision_matrix` touches:
its current joint state and the joint states its sampling methods produce
(`set_joint_state_to_zero`, `set_min_joint_state`, `set_max_joint_state`,
`set_rnd_joint_state` under the fixed random seed), plus `are_linked`. -/
structure GroupState (S : Type) where
  state : S
  zero_state : S
  min_state : S
  max_state : S
  rnd_state : ℕ → S
  are_linked : String → String → Bool

/-- `check_collisions`: the subset of `link_combinations` whose pybullet
distance query at joint state `s` reports a contact below `distance`. -/
def check_collisions {S : Type} (in_collision : S → String → String → ℚ → Bool)
    (s : S) (link_combinations : Finset LinkPair) (distance : ℚ) : Finset LinkPair :=
  link_combinations.filter (fun p => in_collision s p.1 p.2 distance = true)

/-- One iteration of the random-sampling loop: set a random joint state, check
the remaining pairs, and move any hits from `rest` to `sometimes`. -/
def rnd_try_step {S : Type} (in_collision : S → String → String → ℚ → Bool) (d2 : ℚ)
    (st : Finset LinkPair × Finset LinkPair × GroupState S) (i : ℕ) :
    Finset LinkPair × Finset LinkPair × GroupState S :=
  let g := { st.2.2 with state := st.2.2.rnd_state i }
  let sometimes2 := check_collisions in_collision g.state st.2.1 d2
  if sometimes2.Nonempty then (st.1 ∪ sometimes2, st.2.1 \ sometimes2, g)
  else (st.1, st.2.1, g)

/-- `PyBulletSyncer.calc_collision_matrix`, with the group state threaded
explicitly: saves the joint state, excludes linked/identical pairs, drops
pairs already within `d` at the zero state, collects pairs within `d2` at the
min, max and `num_rnd_tries` random states, restores the saved joint state and
returns the collected set together with the final group state. -/
def calc_collision_matrix {S : Type} (in_collision : S → String → String → ℚ → Bool)
    (g0 : GroupState S) (link_combinations : Finset LinkPair) (d d2 : ℚ)
    (num_rnd_tries : ℕ) : Finset LinkPair × GroupState S :=
  let joint_state_tmp := g0.state
  let always := link_combinations.filter (fun p => g0.are_linked p.1 p.2 = true ∨ p.1 = p.2)
  let rest := link_combinations \ always
  let g := { g0 with state := g0.zero_state }
  let always := always ∪ check_collisions in_collision g.state rest d
  let rest := rest \ always
  let g := { g with state := g.min_state }
  let sometimes := check_collisions in_collision g.state rest d2
  let rest := rest \ sometimes
  let g := { g with state := g.max_state }
  let sometimes2 := check_collisions in_collision g.state rest d2
  let rest := rest \ sometimes2
  let sometimes := sometimes ∪ sometimes2
  let looped := (List.range num_rnd_tries).foldl (rnd_try_step in_collision d2)
    (sometimes, rest, g)
  let g := { looped.2.2 with state := joint_state_tmp }
  (looped.1, g)

theorem rnd_try_loop_mem {S : Type} (in_collision : S → String → String → ℚ → Bool)
    (d2 : ℚ) (l : List ℕ) (s0 r0 : Finset LinkPair) (g : GroupState S) (p : LinkPair) :
    p ∈ ((l.foldl (rnd_try_step in_collision d2) (s0, r0, g)).1) ↔
      p ∈ s0 ∨ (p ∈ r0 ∧ ∃ i ∈ l, in_collision (g.rnd_state i) p.1 p.2 d2 = true) := by
  induction l generalizing s0 r0 g with
  | nil => simp
  | cons i t ih =>
    rw [List.foldl_cons]
    by_cases hne : (check_collisions in_collision (g.rnd_state i) r0 d2).Nonempty
    · have hstep : rnd_try_step in_collision d2 (s0, r0, g) i =
          (s0 ∪ check_collisions in_collision (g.rnd_state i) r0 d2,
           r0 \ check_collisions in_collision (g.rnd_state i) r0 d2,
           { g with state := g.rnd_state i }) := by
        unfold rnd_try_step
        dsimp only
        rw [if_pos hne]
      rw [hstep, ih]
      simp only [check_collisions, Finset.mem_union, Finset.mem_sdiff, Finset.mem_filter,
        List.mem_cons]
      constructor
      · rintro ((hp | hp) | ⟨⟨hpr, hpn⟩, j, hj, hcol⟩)
        · exact Or.inl hp
        · exact Or.inr ⟨hp.1, i, Or.inl rfl, hp.2⟩
        · exact Or.inr ⟨hpr, j, Or.inr hj, hcol⟩
      · rintro (hp | ⟨hpr, j, (rfl | hj), hcol⟩)
        · exact Or.inl (Or.inl hp)
        · exact Or.inl (Or.inr ⟨hpr, hcol⟩)
        · by_cases hcoli : in_collision (g.rnd_state i) p.1 p.2 d2 = true
          · exact Or.inl (Or.inr ⟨hpr, hcoli⟩)
          · exact Or.inr ⟨⟨hpr, fun hh => hcoli hh.2⟩, j, hj, hcol⟩
    · have hstep : rnd_try_step in_collision d2 (s0, r0, g) i =
          (s0, r0, { g with state := g.rnd_state i }) := by
        unfold rnd_try_step
        dsimp only
        rw [if_neg hne]
      rw [hstep, ih]
      have hempty : ∀ q ∈ r0, ¬ in_collision (g.rnd_state i) q.1 q.2 d2 = true := by
        intro q hq hcol
        exact hne ⟨q, Finset.mem_filter.mpr ⟨hq, hcol⟩⟩
      simp only [List.mem_cons]
      constructor
      · rintro (hp | ⟨hpr, j, hj, hcol⟩)
        · exact Or.inl hp
        · exact Or.inr ⟨hpr, j, Or.inr hj, hcol⟩
      · rintro (hp | ⟨hpr, j, (rfl | hj), hcol⟩)
        · exact Or.inl hp
        · exact absurd hcol (hempty p hpr)
        · exact Or.inr ⟨hpr, j, hj, hcol⟩

theorem rnd_try_loop_fields {S : Type} (in_collision : S → String → String → ℚ → Bool)
    (d2 : ℚ) (l : List ℕ) (st : Finset LinkPair × Finset LinkPair × GroupState S) :
    ∃ s, (l.foldl (rnd_try_step in_collision d2) st).2.2 = { st.2.2 with state := s } := by
  induction l generalizing st with
  | nil => exact ⟨st.2.2.state, rfl⟩
  | cons i t ih =>
    rw [List.foldl_cons]
    by_cases hne : (check_collisions in_collision (st.2.2.rnd_state i) st.2.1 d2).Nonempty
    · have hstep : rnd_try_step in_collision d2 st i =
          (st.1 ∪ check_collisions in_collision (st.2.2.rnd_state i) st.2.1 d2,
           st.2.1 \ check_collisions in_collision (st.2.2.rnd_state i) st.2.1 d2,
           { st.2.2 with state := st.2.2.rnd_state i }) := by
        unfold rnd_try_step
        dsimp only
        rw [if_pos hne]
      rw [hstep]
      obtain ⟨s, hs⟩ := ih (st.1 ∪ check_collisions in_collision (st.2.2.rnd_state i) st.2.1 d2,
        st.2.1 \ check_collisions in_collision (st.2.2.rnd_state i) st.2.1 d2,
        { st.2.2 with state := st.2.2.rnd_state i })
      exact ⟨s, hs⟩
    · have hstep : rnd_try_step in_collision d2 st i =
          (st.1, st.2.1, { st.2.2 with state := st.2.2.rnd_state i }) := by
        unfold rnd_try_step
        dsimp only
        rw [if_neg hne]
      rw [hstep]
      obtain ⟨s, hs⟩ := ih (st.1, st.2.1, { st.2.2 with state := st.2.2.rnd_state i })
      exact ⟨s, hs⟩

set_option maxHeartbeats 1600000 in
/-- C4: the self-collision matrix contains exactly the candidate pairs that
are neither identical nor directly linked, are not within `d` at the zero
joint state, and come within `d2` at the min, max or one of the
`num_rnd_tries` random joint states. -/
theorem calc_collision_matrix_membership {S : Type}
    (in_collision : S → String → String → ℚ → Bool) (g0 : GroupState S)
    (link_combinations : Finset LinkPair) (d d2 : ℚ) (num_rnd_tries : ℕ) (p : LinkPair) :
    p ∈ (calc_collision_matrix in_collision g0 link_combinations d d2 num_rnd_tries).1 ↔
      p ∈ link_combinations ∧
      ¬(g0.are_linked p.1 p.2 = true ∨ p.1 = p.2) ∧
      ¬ in_collision g0.zero_state p.1 p.2 d = true ∧
      (in_collision g0.min_state p.1 p.2 d2 = true ∨
        in_collision g0.max_state p.1 p.2 d2 = true ∨
        ∃ i < num_rnd_tries, in_collision (g0.rnd_state i) p.1 p.2 d2 = true) := by
  unfold calc_collision_matrix
  dsimp only
  rw [rnd_try_loop_mem]
  dsimp only
  simp only [check_collisions, Finset.mem_union, Finset.mem_sdiff, Finset.mem_filter,
    List.mem_range]
  tauto

theorem rnd_loop_restore {S : Type} (in_collision : S → String → String → ℚ → Bool)
    (d2 : ℚ) (l : List ℕ) (a b : Finset LinkPair) (g0 : GroupState S) (s0 : S) :
    { (l.foldl (rnd_try_step in_collision d2) (a, b, { g0 with state := s0 })).2.2 with
        state := g0.state } = g0 := by
  obtain ⟨s, hs⟩ := rnd_try_loop_fields in_collision d2 l (a, b, { g0 with state := s0 })
  rw [hs]

/-- C9: `calc_collision_matrix` restores the group joint state it saved on
entry: the returned group state equals the input group state exactly, for
every input. -/
theorem calc_collision_matrix_restores_joint_state {S : Type}
    (in_collision : S → String → String → ℚ → Bool) (g0 : GroupState S)
    (link_combinations : Finset LinkPair) (d d2 : ℚ) (num_rnd_tries : ℕ) :
    (calc_collision_matrix in_collision g0 link_combinations d d2 num_rnd_tries).2 = g0 := by
  unfold calc_collision_matrix
  dsimp only
  exact rnd_loop_restore in_collision d2 (List.range num_rnd_tries) _ _ g0 _

/-! ## C8: parent conditions reach sub-goals only when forwarded explicitly
(src/giskardpy/goals/suturo.py AlignHeight, src/giskardpy/goals/open_close.py Open) -/

/-- A recorded `add_constraints_of_goal` call site: which sub-goal class is
constructed and which condition arguments are passed explicitly.  `none` means
the keyword was omitted, so the sub-goal runs under its own default
conditions. -/
structure SubGoalCall (E : Type) where
  goal_class : String
  start_condition : Option E
  hold_condition : Option E
  end_condition : Option E
deriving DecidableEq, Repr

/-- The sub-goal constructions performed by `AlignHeight.__init__`, in source
order: with `from_above`, two `AlignPlanes` without condition arguments;
otherwise a `KeepRotationGoal` with the parent's conditions; then a
`KeepRotationGoal` on the base footprint and a `CartesianPosition`, both with
the parent's conditions passed explicitly. -/
def AlignHeight_subgoal_calls {E : Type} (from_above : Bool)
    (start_condition hold_condition end_condition : E) : List (SubGoalCall E) :=
  (if from_above then
    [⟨"AlignPlanes", none, none, none⟩, ⟨"AlignPlanes", none, none, none⟩]
   else
    [⟨"KeepRotationGoal", some start_condition, some hold_condition, some end_condition⟩]) ++
  [⟨"KeepRotationGoal", some start_condition, some hold_condition, some end_condition⟩,
   ⟨"CartesianPosition", some start_condition, some hold_condition, some end_condition⟩]

/-- The sub-goal constructions performed by `Open.__init__`: a
`JointPositionList` with the (possibly door-monitor-extended) conditions
passed explicitly; with `special_door` and a goal state above 1, a second
`JointPositionList` started by the end condition and ended by a sleep
monitor. -/
def Open_subgoal_calls {E : Type} (special_door goal_state_gt_one : Bool)
    (start_condition hold_condition end_condition : E)
    (door_monitor_expression sleep_monitor_expression : E) (logic_or : E → E → E) :
    List (SubGoalCall E) :=
  let end_condition := if special_door then logic_or end_condition door_monitor_expression
    else end_condition
  [⟨"JointPositionList", some start_condition, some hold_condition, some end_condition⟩] ++
  (if goal_state_gt_one && special_door then
    [⟨"JointPositionList", some end_condition, some hold_condition,
      some sleep_monitor_expression⟩]
   else [])

/-- C8: a parent's conditions are not implicitly propagated.  In
`AlignHeight` with `from_above`, the two `AlignPlanes` sub-goals are
constructed without condition arguments (their own defaults apply) while the
`CartesianPosition` and `KeepRotationGoal` sub-goals receive the parent's
conditions because they are forwarded explicitly; `Open` forwards its
conditions to its `JointPositionList` sub-goal explicitly as well. -/
theorem conditions_not_implicitly_propagated {E : Type}
    (start_condition hold_condition end_condition : E) :
    ((AlignHeight_subgoal_calls true start_condition hold_condition end_condition).filter
        (fun c => c.goal_class == "AlignPlanes") =
      [⟨"AlignPlanes", none, none, none⟩, ⟨"AlignPlanes", none, none, none⟩]) ∧
    ((AlignHeight_subgoal_calls true start_condition hold_condition end_condition).filter
        (fun c => c.goal_class == "CartesianPosition") =
      [⟨"CartesianPosition", some start_condition, some hold_condition,
        some end_condition⟩]) ∧
    ((AlignHeight_subgoal_calls true start_condition hold_condition end_condition).filter
        (fun c => c.goal_class == "KeepRotationGoal") =
      [⟨"KeepRotationGoal", some start_condition, some hold_condition,
        some end_condition⟩]) ∧
    (∀ (dm sl : E) (lor : E → E → E),
      (Open_subgoal_calls false false start_condition hold_condition end_condition
          dm sl lor) =
        [⟨"JointPositionList", some start_condition, some hold_condition,
          some end_condition⟩]) := by
  refine ⟨rfl, rfl, rfl, fun dm sl lor => rfl⟩

/-! ## C10: the PayloadForceTorque monitor
(src/giskardpy/monitors/force_torque_monitor.py) -/

structure Vector3 where
  x : ℚ
  y : ℚ
  z : ℚ
deriving DecidableEq, Repr

inductive MonitorCallError where
| attributeError
deriving DecidableEq, Repr

/-- `ForceTorqueThresholds.FT_GraspWithCare.value`. -/
def FT_GraspWithCare : String := "GraspCarefully"

/-- `ForceTorqueThresholds.FT_Placing.value`. -/
def FT_Placing : String := "Place"

/-- `PayloadForceTorque.__call__` applied to the map-transformed force and
torque vectors.  The `GraspCarefully` and `Place` branches set
`self.state` from their threshold comparisons; every other `threshold_name`
reaches the final `elif self.threshold_name != ForceTorqueThresholds.value`
branch, whose condition accesses `.value` on the enum class itself and
therefore raises `AttributeError`, leaving the state as it was.  Returns the
new state and the raised error, if any. -/
def PayloadForceTorque_call (threshold_name : String) (rob_force rob_torque : Vector3)
    (state : Option Bool) : (Option Bool) × Option MonitorCallError :=
  if threshold_name = FT_GraspWithCare then
    (some (decide (|rob_force.y| > (2 : ℚ)/10 ∨ |rob_torque.y| > (2 : ℚ)/100)), none)
  else if threshold_name = FT_Placing then
    (some (decide (|rob_force.x| ≥ 10 ∨ |rob_torque.y| > 4)), none)
  else (state, some .attributeError)

/-- C10: calling the monitor sets its boolean state only for the
`GraspCarefully` and `Place` thresholds; any other threshold name leaves the
state exactly as it was and fails with an `AttributeError` from the broken
validation branch instead of evaluating a threshold. -/
theorem force_torque_state_set_only_for_grasp_and_place
    (threshold_name : String) (rob_force rob_torque : Vector3) (state : Option Bool)
    (h : threshold_name ≠ FT_GraspWithCare ∧ threshold_name ≠ FT_Placing) :
    PayloadForceTorque_call threshold_name rob_force rob_torque state =
      (state, some .attributeError) ∧
    (∀ s, (PayloadForceTorque_call FT_GraspWithCare rob_force rob_torque s).2 = none ∧
      (PayloadForceTorque_call FT_GraspWithCare rob_force rob_torque s).1 =
        some (decide (|rob_force.y| > (2 : ℚ)/10 ∨ |rob_torque.y| > (2 : ℚ)/100))) ∧
    (∀ s, (PayloadForceTorque_call FT_Placing rob_force rob_torque s).2 = none ∧
      (PayloadForceTorque_call FT_Placing rob_force rob_torque s).1 =
        some (decide (|rob_force.x| ≥ 10 ∨ |rob_torque.y| > 4))) := by
  refine ⟨?_, ?_, ?_⟩
  · unfold PayloadForceTorque_call
    rw [if_neg h.1, if_neg h.2]
  · intro s
    unfold PayloadForceTorque_call
    rw [if_pos rfl]
    exact ⟨rfl, rfl⟩
  · intro s
    have hne : FT_Placing ≠ FT_GraspWithCare := by decide
    unfold PayloadForceTorque_call
    rw [if_neg hne, if_pos rfl]
    exact ⟨rfl, rfl⟩

/-- Witness for C10 at threshold name `Door`. -/
theorem force_torque_witness :
    (("Door" : String) ≠ FT_GraspWithCare ∧ ("Door" : String) ≠ FT_Placing) ∧
    PayloadForceTorque_call ("Door") ⟨1, 2, 3⟩ ⟨0, 0, 0⟩ none =
      (none, some .attributeError) :=
  ⟨by decide,
    (force_torque_state_set_only_for_grasp_and_place ("Door") ⟨1, 2, 3⟩ ⟨0, 0, 0⟩ none
      (by decide)).1⟩

end Giskard
